import Mathlib

/-
  Verification development for the state-access and effect-commit layer of
  the CasperLabs execution engine.

  Shallow embedding of:
  - src/execution-engine/contract-ffi/src/contract_api/storage.rs
    (the guest-facing storage API: read, read_local, write, write_local,
     add, new_turef, store_function, store_function_at_hash)
  - src/execution-engine/engine-tests/src/support/test_support.rs
    (the WasmTestBuilder commit machinery: run_genesis, commit,
     send_commit_request, commit_effects, get_account)

  The host side (the ext_ffi functions, the engine commit, and the
  Key / URef / TURef / Value / Transform types of contract-ffi and
  engine-shared) is not part of the source excerpt; those definitions are
  modelled from the specification and are marked as such in their doc
  comments.  Fixed-size 32-byte addresses and Blake2b hashes are abstracted
  as natural numbers; byte strings as lists of naturals; protobuf request
  and response marshaling is elided (the commit request is represented
  directly by its prestate root and effect map).  A state root hash is
  identified with the store content it addresses (the content hash is
  modelled as a perfect hash, so a root *is* the canonical store snapshot).
-/

namespace CasperLabs

/-- Access rights bit-set over READ, WRITE, ADD.
Modelled from the spec: AccessRights is a bit-set over \x7bREAD, WRITE, ADD\x7d
(the contract-ffi uref module is not part of the source excerpt). -/
structure AccessRights where
  read : Bool
  write : Bool
  add : Bool
deriving DecidableEq, Repr

/-- No rights at all (the normal form used for keys stored in the trie). -/
def AccessRights.NONE : AccessRights := ⟨false, false, false⟩

/-- READ only. -/
def AccessRights.READ : AccessRights := ⟨true, false, false⟩

/-- Full READ_ADD_WRITE rights. -/
def AccessRights.READ_ADD_WRITE : AccessRights := ⟨true, true, true⟩

/-- Bit-set inclusion of access rights: every right of r1 is a right of r2. -/
def AccessRights.isSubsetOf (r1 r2 : AccessRights) : Bool :=
  (!r1.read || r2.read) && (!r1.write || r2.write) && (!r1.add || r2.add)

/-- An unforgeable reference: a 32-byte address (abstracted as Nat) plus
access rights.  Modelled from the spec: URef bundles an address with an
AccessRights value. -/
structure URef where
  addr : Nat
  access_rights : AccessRights
deriving DecidableEq, Repr

/-- Global address variant.  Modelled from the spec: Key is the closed
variant Account(address), Hash(address), URef(uref), Local(seed, hash). -/
inductive Key where
  | Account (addr : Nat)
  | Hash (addr : Nat)
  | URef (u : URef)
  | Local (seed : Nat) (hashBytes : Nat)
deriving DecidableEq, Repr

/-- Storage slots are identified by address only: two URefs with the same
address but different rights denote the same slot, so keys are normalized
(rights erased) before touching the store or the accumulator.  Modelled
from the spec: two URefs with the same address are distinct capabilities
over the *same* slot. -/
def Key.normalize : Key → Key
  | Key.URef u => Key.URef ⟨u.addr, AccessRights.NONE⟩
  | k => k

/-- Projection of a Key to its URef, when it is the URef variant
(mirrors Key::as_uref used by run_genesis). -/
def Key.as_uref : Key → Option CasperLabs.URef
  | Key.URef u => some u
  | _ => none

/-- Whether a Key is the URef variant. -/
def Key.isURefVariant : Key → Bool
  | Key.URef _ => true
  | _ => false

/-- An account record.  Modelled from the spec: an account value carries
its public key and a map of known named keys (urefs_lookup). -/
structure Account where
  pub_key : Nat
  urefs_lookup : List (String × Key)
deriving DecidableEq, Repr

/-- A stored contract record.  Modelled from the spec: a named bundle of
entry points (its serialized bytes) together with a snapshot of capability
bindings (named_keys). -/
structure Contract where
  bytes : List Nat
  named_keys : List (String × Key)
deriving DecidableEq, Repr

/-- Storable value kinds.  Modelled from the spec: Value is a closed
variant of storable payload kinds (numeric scalars, strings, account
records, contract records); only the kinds the claims exercise are
carried. -/
inductive Value where
  | Int32 (i : Int)
  | Str (s : String)
  | Account (a : Account)
  | Contract (c : Contract)
deriving DecidableEq, Repr

/-- Deferred mutation.  Modelled from the spec (and mirroring the
engine-shared Transform enum used by test_support.rs): Write(Value),
AddInt32(delta), Identity, Failure. -/
inductive Transform where
  | Identity
  | Write (v : Value)
  | AddInt32 (i : Int)
  | Failure
deriving DecidableEq, Repr

/-- The error tags of the contract API surfaced to guest code
(the variants referenced by storage.rs plus the InvalidAccess rights
failure of the spec error taxonomy). -/
inductive Error where
  | ValueNotFound
  | ValueConversion
  | UnexpectedKeyVariant
  | InvalidAccess
deriving DecidableEq, Repr

/-- Failure of a commit at the global-state collaborator boundary. -/
inductive CommitFailure where
  | TransformFailure
deriving DecidableEq, Repr

/-- First-match association-list lookup (the model of HashMap / BTreeMap
lookups; map keys are unique in every map the engine produces). -/
def alookup {κ β : Type} [DecidableEq κ] : List (κ × β) → κ → Option β
  | [], _ => none
  | (k', b) :: rest, k => if k' = k then some b else alookup rest k

/-- Merge of a new transform into the prior transform for the same key
(the Transform algebra of the spec, section 4.2): a Write overwrites,
AddInt32 accumulates into a prior numeric Write or Add, Identity is the
neutral element, and a non-mergeable add yields Failure. -/
def Transform.merge (prev next : Transform) : Transform :=
  match next with
  | Transform.Identity => prev
  | Transform.Write v => Transform.Write v
  | Transform.Failure => Transform.Failure
  | Transform.AddInt32 j =>
    match prev with
    | Transform.Identity => Transform.AddInt32 j
    | Transform.AddInt32 i => Transform.AddInt32 (i + j)
    | Transform.Write v =>
      match v with
      | Value.Int32 i => Transform.Write (Value.Int32 (i + j))
      | _ => Transform.Failure
    | Transform.Failure => Transform.Failure

/-- Insert a transform for a key into the accumulator, merging with the
existing entry for that key so that a key has at most one net transform
(spec section 4.5). -/
def insertTransform (acc : List (Key × Transform)) (k : Key) (t : Transform) :
    List (Key × Transform) :=
  match acc with
  | [] => [(k, t)]
  | (k', t') :: rest =>
    if k' = k then (k', Transform.merge t' t) :: rest
    else (k', t') :: insertTransform rest k t

/-- A store snapshot: the mapping from (normalized) keys to values that a
state root identifies.  Modelled from the spec: each committed root is a
Merkle-hashed mapping from Key to Value; the content hash is abstracted as
a perfect hash, so a root hash is identified with the snapshot itself. -/
def Store : Type := List (Key × Value)

instance : DecidableEq Store := by
  unfold Store
  exact inferInstance

instance : Repr Store := by
  unfold Store
  exact inferInstance

/-- Deterministic hash of a byte string to a Nat, standing in for the
Blake2b hash used to form Key::Local and contract addresses. -/
def byteHash (bytes : List Nat) : Nat :=
  bytes.foldl (fun h b => h * 257 + b + 1) 0

/-- Bytes of a string (the canonical encoding of a str value, abstracted
as the list of code points). -/
def strBytes (s : String) : List Nat :=
  s.toList.map Char.toNat

/-- The state of one speculative execution as seen by the storage API.
Modelled from the spec: an execution reads a fixed durable snapshot
(globalState, the store at the current root), buffers every mutation in
the effect accumulator, owns a context seed for the local partition, and
relies on the host as sole authority for fresh address generation
(freshCounter). -/
structure ExecContext where
  globalState : Store
  accumulator : List (Key × Transform)
  seed : Nat
  freshCounter : Nat
deriving DecidableEq, Repr

/-- The key of a local-partition entry: Key::local(seed, hash(key_bytes)),
scoped to the calling context and disjoint from every global Key variant. -/
def localKey (seed : Nat) (keyBytes : List Nat) : Key :=
  Key.Local seed (byteHash keyBytes)

/-- Host-side readability of a key: reading through a URef requires the
READ right; other key variants carry no capability to check here.
Modelled from the spec: READ is required for read, and insufficient
rights is a distinct reported error. -/
def readRight : Key → Bool
  | Key.URef u => u.access_rights.read
  | _ => true

/-- Host-side writability of a key: writing through a URef requires the
WRITE right; local-partition keys are writable by their owning context;
account and hash slots are not writable by guest code.  Modelled from the
spec rights-check contract. -/
def writeRight : Key → Bool
  | Key.URef u => u.access_rights.write
  | Key.Local _ _ => true
  | _ => false

/-- Host-side addability of a key: adding through a URef requires the ADD
right; local-partition keys are addable by their owning context.
Modelled from the spec rights-check contract. -/
def addRight : Key → Bool
  | Key.URef u => u.access_rights.add
  | Key.Local _ _ => true
  | _ => false

/-- A typed unforgeable reference: a URef statically tagged with the value
type it is expected to hold (the phantom parameter).  Modelled from the
spec: a zero-cost typing layer over URef. -/
structure TURef (α : Type) where
  addr : Nat
  access_rights : AccessRights
deriving DecidableEq, Repr

/-- TURef to Key conversion (the `turef.into()` used throughout
storage.rs): a URef key carrying the same address and rights. -/
def TURef.toKey {α : Type} (t : TURef α) : Key :=
  Key.URef ⟨t.addr, t.access_rights⟩

/-- TURef::from_uref: wrap a URef (whose rights are always present in this
model) into a typed reference. -/
def TURef.from_uref {α : Type} (u : URef) : TURef α :=
  ⟨u.addr, u.access_rights⟩

/-- TURef::set_access_rights: replace the rights of the capability
(reimplemented as an immutable value per the spec design notes). -/
def TURef.set_access_rights {α : Type} (t : TURef α) (r : AccessRights) : TURef α :=
  ⟨t.addr, r⟩

/-- Modelled from the spec: the Key to TURef conversion (a TryFrom impl
outside the source excerpt) succeeds exactly on the URef variant and
fails with UnexpectedKeyVariant otherwise. -/
def TURef.fromKey {α : Type} (k : Key) : Except Error (TURef α) :=
  match k with
  | Key.URef u => Except.ok (TURef.from_uref u)
  | _ => Except.error Error.UnexpectedKeyVariant

/-- ContractRef as returned by store_function and store_function_at_hash:
either a typed URef to a mutable contract slot or the hash address of an
immutable slot. -/
inductive ContractRef where
  | TURef (t : CasperLabs.TURef Contract)
  | Hash (addr : Nat)
deriving DecidableEq, Repr

/-
  The guest-facing storage API of
  src/execution-engine/contract-ffi/src/contract_api/storage.rs.

  Reverts (runtime::revert / unwrap_or_revert) are modelled by the error
  branch of Except: a reverted execution aborts with the given tag and its
  accumulated effects are discarded.  The ext_ffi host calls are modelled
  from the spec: read_value queries the durable snapshot at the current
  root (never the in-flight accumulator), and every mutation is buffered
  into the accumulator after the rights check.  Serialization to and from
  the host buffer is elided: the host hands back structured Values, so
  the bytesrepr deserialization step of read_untyped cannot fail here.
-/

/-- storage.rs read_untyped: ask the host for the value under a key.
The host (modelled from the spec) checks the READ right, returns the
durable snapshot content at the normalized key, and reports a missing key
as ValueNotFound, which read_untyped converts to Ok(None); any other host
error reverts. -/
def read_untyped (ctx : ExecContext) (key : Key) : Except Error (Option Value) :=
  if readRight key then Except.ok (alookup ctx.globalState key.normalize)
  else Except.error Error.InvalidAccess

/-- storage.rs try_into: narrow an optional Value to the requested guest
type; a missing value stays None, a present value of the wrong shape
reverts with ValueConversion. -/
def try_into {α : Type} (fromValue : Value → Option α) :
    Option Value → Except Error (Option α)
  | none => Except.ok none
  | some v =>
    match fromValue v with
    | some a => Except.ok (some a)
    | none => Except.error Error.ValueConversion

/-- storage.rs read: resolve the capability to a Key, query global state,
and narrow the result (fromValue plays the role of the TryFrom<Value>
instance of the guest type). -/
def read {α : Type} (fromValue : Value → Option α) (ctx : ExecContext)
    (turef : TURef α) : Except Error (Option α) := do
  let maybe_value ← read_untyped ctx (TURef.toKey turef)
  try_into fromValue maybe_value

/-- storage.rs read_untyped_local: same as read_untyped, scoped to the
local partition (the host derives Key::local from the context seed and
the serialized key bytes; local entries are always readable by their
owning context). -/
def read_untyped_local (ctx : ExecContext) (key_bytes : List Nat) :
    Except Error (Option Value) :=
  Except.ok (alookup ctx.globalState (localKey ctx.seed key_bytes))

/-- storage.rs read_local: serialize the key, read the local partition,
and narrow the result. -/
def read_local {κ ν : Type} (toBytes : κ → List Nat) (fromValue : Value → Option ν)
    (ctx : ExecContext) (k : κ) : Except Error (Option ν) := do
  let maybe_value ← read_untyped_local ctx (toBytes k)
  try_into fromValue maybe_value

/-- storage.rs write_untyped: the host (modelled from the spec) checks the
WRITE right and buffers a Write transform for the normalized key in the
effect accumulator; the durable snapshot is untouched. -/
def write_untyped (ctx : ExecContext) (key : Key) (value : Value) :
    Except Error ExecContext :=
  if writeRight key then
    Except.ok { ctx with
      accumulator := insertTransform ctx.accumulator key.normalize (Transform.Write value) }
  else Except.error Error.InvalidAccess

/-- storage.rs write: resolve the capability and enqueue a Write transform
(toValue plays the role of the Into<Value> instance). -/
def write {α : Type} (toValue : α → Value) (ctx : ExecContext) (turef : TURef α)
    (t : α) : Except Error ExecContext :=
  write_untyped ctx (TURef.toKey turef) (toValue t)

/-- storage.rs write_untyped_local: buffer a Write transform for the
local-partition key derived from the context seed and the key bytes. -/
def write_untyped_local (ctx : ExecContext) (key_bytes : List Nat) (value : Value) :
    ExecContext :=
  { ctx with
    accumulator :=
      insertTransform ctx.accumulator (localKey ctx.seed key_bytes) (Transform.Write value) }

/-- storage.rs write_local: serialize the key and enqueue a Write
transform in the local partition. -/
def write_local {κ ν : Type} (toBytes : κ → List Nat) (toValue : ν → Value)
    (ctx : ExecContext) (k : κ) (v : ν) : ExecContext :=
  write_untyped_local ctx (toBytes k) (toValue v)

/-- The transform an add of the given value enqueues: numeric values add
within their family; a value without a commutative merge marks the key
with Failure, surfaced at commit time (spec section 4.3). -/
def addTransformOf (v : Value) : Transform :=
  match v with
  | Value.Int32 i => Transform.AddInt32 i
  | _ => Transform.Failure

/-- storage.rs add_untyped: the host (modelled from the spec) checks the
ADD right and buffers the add transform for the normalized key. -/
def add_untyped (ctx : ExecContext) (key : Key) (value : Value) :
    Except Error ExecContext :=
  if addRight key then
    Except.ok { ctx with
      accumulator := insertTransform ctx.accumulator key.normalize (addTransformOf value) }
  else Except.error Error.InvalidAccess

/-- storage.rs add: resolve the capability and enqueue an add transform. -/
def add {α : Type} (toValue : α → Value) (ctx : ExecContext) (turef : TURef α)
    (t : α) : Except Error ExecContext :=
  add_untyped ctx (TURef.toKey turef) (toValue t)

/-- Modelled from the spec: the ext_ffi new_uref host call mints a fresh
address (the host is the sole authority for address generation), seeds the
new slot with the given value via an immediate Write transform, and hands
the guest the serialized Key::URef carrying full READ_ADD_WRITE rights. -/
def host_new_uref (ctx : ExecContext) (v : Value) : Key × ExecContext :=
  let u : URef := ⟨ctx.freshCounter, AccessRights.READ_ADD_WRITE⟩
  (Key.URef u,
   { ctx with
     freshCounter := ctx.freshCounter + 1,
     accumulator := insertTransform ctx.accumulator (Key.URef u).normalize
       (Transform.Write v) })

/-- The tail of storage.rs new_turef after the host key has been
deserialized: the `if let Key::URef` match that wraps the URef via
TURef::from_uref and reverts with UnexpectedKeyVariant on any other key
variant. -/
def new_turef_from_host_key {α : Type} (key : Key) (ctx : ExecContext) :
    Except Error (TURef α × ExecContext) :=
  match key with
  | Key.URef u => Except.ok (TURef.from_uref u, ctx)
  | _ => Except.error Error.UnexpectedKeyVariant

/-- storage.rs new_turef: call the host new_uref with the serialized
initial value, deserialize the returned key, and wrap it into a typed
reference (reverting with UnexpectedKeyVariant if it is not a URef). -/
def new_turef {α : Type} (toValue : α → Value) (ctx : ExecContext) (init : α) :
    Except Error (TURef α × ExecContext) :=
  let p := host_new_uref ctx (toValue init)
  new_turef_from_host_key p.1 p.2

/-- Modelled from the spec: the ext_ffi store_function host call persists
the Contract value (the serialized exported function plus named_keys)
under a freshly minted URef address and writes that address back to the
guest. -/
def host_store_function (ctx : ExecContext) (name : String)
    (named_keys : List (String × Key)) : Nat × ExecContext :=
  let c : Contract := ⟨strBytes name, named_keys⟩
  let addr := ctx.freshCounter
  (addr,
   { ctx with
     freshCounter := ctx.freshCounter + 1,
     accumulator := insertTransform ctx.accumulator
       (Key.URef ⟨addr, AccessRights.READ_ADD_WRITE⟩).normalize
       (Transform.Write (Value.Contract c)) })

/-- storage.rs store_function: persist the contract under a fresh URef
and return ContractRef::TURef with full READ_ADD_WRITE rights (a mutable
slot). -/
def store_function (ctx : ExecContext) (name : String)
    (named_keys : List (String × Key)) : ContractRef × ExecContext :=
  let p := host_store_function ctx name named_keys
  (ContractRef.TURef ⟨p.1, AccessRights.READ_ADD_WRITE⟩, p.2)

/-- The content hash addressing an immutable contract slot.  Modelled from
the spec: store_function_at_hash addresses the stored Contract by a
content hash. -/
def contractHash (c : Contract) : Nat :=
  byteHash c.bytes

/-- Modelled from the spec: the ext_ffi store_function_at_hash host call
persists the Contract value under its content hash address and writes that
address back to the guest. -/
def host_store_function_at_hash (ctx : ExecContext) (name : String)
    (named_keys : List (String × Key)) : Nat × ExecContext :=
  let c : Contract := ⟨strBytes name, named_keys⟩
  let addr := contractHash c
  (addr,
   { ctx with
     accumulator := insertTransform ctx.accumulator (Key.Hash addr)
       (Transform.Write (Value.Contract c)) })

/-- storage.rs store_function_at_hash: persist the contract under its
content hash and return ContractRef::Hash (an immutable slot). -/
def store_function_at_hash (ctx : ExecContext) (name : String)
    (named_keys : List (String × Key)) : ContractRef × ExecContext :=
  let p := host_store_function_at_hash ctx name named_keys
  (ContractRef.Hash p.1, p.2)

/-
  The effect-commit layer.  The engine commit itself
  (EngineState::commit behind the grpc boundary used by
  test_support.rs) is not part of the source excerpt; it is modelled from
  the spec: given (prestate root, effect map) it applies every transform
  atomically — all mutations succeed and produce a new root, or none are
  applied — and returns the new root hash together with the
  bonded-validator snapshot derived from the post-commit store.
-/

/-- Insert or overwrite a value for a key in a store snapshot. -/
def insertValue (s : Store) (k : Key) (v : Value) : Store :=
  match s with
  | [] => [(k, v)]
  | (k', v') :: rest =>
    if k' = k then (k', v) :: rest else (k', v') :: insertValue rest k v

/-- Apply one transform to a store snapshot at a (normalized) key.
Modelled from the spec: Write overwrites, a numeric add accumulates into
the existing value of the same family (an add against a missing key is an
add against the implicit zero of that family, spec section 6), Identity is
a no-op, and a Failure transform or a type-mismatched add fails the whole
commit. -/
def applyTransform (s : Store) (k : Key) (t : Transform) : Option Store :=
  match t with
  | Transform.Identity => some s
  | Transform.Write v => some (insertValue s k.normalize v)
  | Transform.Failure => none
  | Transform.AddInt32 j =>
    match alookup s k.normalize with
    | none => some (insertValue s k.normalize (Value.Int32 j))
    | some (Value.Int32 i) => some (insertValue s k.normalize (Value.Int32 (i + j)))
    | some _ => none

/-- Apply an effect map to a store snapshot: every transform must apply,
or the whole commit yields nothing (atomicity by construction: the caller
keeps the prior root on failure). -/
def commitStore (s : Store) (effects : List (Key × Transform)) : Option Store :=
  match effects with
  | [] => some s
  | (k, t) :: rest =>
    match applyTransform s k t with
    | none => none
    | some s2 => commitStore s2 rest

/-- Modelled from the spec: the bonded-validator snapshot is the ancillary
projected state derived from the post-commit store (the stake recorded
under account slots, as public key and amount pairs). -/
def bonded_of (s : Store) : List (Nat × Int) :=
  match s with
  | [] => []
  | (Key.Account a, Value.Int32 n) :: rest => (a, n) :: bonded_of rest
  | _ :: rest => bonded_of rest

/-- Modelled from the spec: EngineState::commit at the collaborator
boundary.  Atomic: when every transform of the effect map applies, it
returns the single successor root together with the bonded-validator
snapshot derived from the post-commit store; when any transform fails,
it returns a CommitFailure and no root (the prior root stays the
reference point of the caller). -/
def engineCommit (prestate : Store) (effects : List (Key × Transform)) :
    Except CommitFailure (Store × List (Nat × Int)) :=
  match commitStore prestate effects with
  | none => Except.error CommitFailure.TransformFailure
  | some s2 => Except.ok (s2, bonded_of s2)

/-
  The WasmTestBuilder of
  src/execution-engine/engine-tests/src/support/test_support.rs.
  Only the state the commit lifecycle touches is carried (the engine
  itself is pure in this model, so no engine_state field is needed; a
  root hash is the store snapshot it addresses).  A panic! of the builder
  is modelled as the none branch of Option: the builder state is lost and
  in particular nothing is replaced.
-/

/-- The builder state of WasmTestBuilder. -/
structure WasmTestBuilder where
  genesis_hash : Option Store
  post_state_hash : Option Store
  transforms : List (List (Key × Transform))
  bonded_validators : List (List (Nat × Int))
  genesis_account : Option Account
  genesis_transforms : Option (List (Key × Transform))
  mint_contract_uref : Option URef
  pos_contract_uref : Option URef
deriving DecidableEq, Repr

/-- Default::default() for InMemoryWasmTestBuilder: a fresh builder with
no genesis hash, no post-state hash, and no cached transforms. -/
def defaultBuilder : WasmTestBuilder :=
  ⟨none, none, [], [], none, none, none, none⟩

/-- test_support.rs send_commit_request: build a commit request from the
prestate hash and the effect map and send it to the engine (request
marshaling through protobuf is elided; the engine commit is the
spec-modelled engineCommit). -/
def send_commit_request (_b : WasmTestBuilder) (prestate_hash : Store)
    (effects : List (Key × Transform)) :
    Except CommitFailure (Store × List (Nat × Int)) :=
  engineCommit prestate_hash effects

/-- test_support.rs commit_effects: run a commit request, panic on a
failure response (the none branch), and on success overwrite the cached
post-state hash with the returned new root and push the returned
bonded-validator snapshot. -/
def commit_effects (b : WasmTestBuilder) (prestate_hash : Store)
    (effects : List (Key × Transform)) : Option WasmTestBuilder :=
  match send_commit_request b prestate_hash effects with
  | Except.error _ => none
  | Except.ok p =>
    some { b with
      post_state_hash := some p.1,
      bonded_validators := b.bonded_validators ++ [p.2] }

/-- test_support.rs commit: commit the effects of the previous exec call
(the last cached transform map, defaulting to the empty map) on the
latest post-state hash; panics (none) when no post-state hash exists. -/
def builder_commit (b : WasmTestBuilder) : Option WasmTestBuilder :=
  match b.post_state_hash with
  | none => none
  | some prestate_hash =>
    commit_effects b prestate_hash (b.transforms.getLast?.getD [])

/-- test_support.rs get_account: look up the transform for the given key
and return the account exactly when that transform is a Write of an
Account value. -/
def get_account (transforms : List (Key × Transform)) (account : Key) :
    Option Account :=
  match alookup transforms account with
  | some (Transform.Write (Value.Account a)) => some a
  | _ => none

/-- The system account address ([0u8; 32] in the engine). -/
def SYSTEM_ACCOUNT_ADDR : Nat := 0

/-- The named key of the mint contract in the system account. -/
def MINT_NAME : String := "mint"

/-- The named key of the proof-of-stake contract in the system account. -/
def POS_NAME : String := "pos"

/-- test_support.rs run_genesis: run the genesis request (modelled from
the spec: the installer-supplied writes become the first committed effect
map applied to the empty store, producing the first root; a failed genesis
panics), then extract the system account and the mint and PoS contract
urefs from the genesis transforms (each missing piece panics), and set
both the genesis hash and the post-state hash to the single root hash of
the genesis response. -/
def run_genesis (b : WasmTestBuilder) (genesis_effects : List (Key × Transform)) :
    Option WasmTestBuilder :=
  match engineCommit [] genesis_effects with
  | Except.error _ => none
  | Except.ok p =>
    match get_account genesis_effects (Key.Account SYSTEM_ACCOUNT_ADDR) with
    | none => none
    | some acct =>
      match (alookup acct.urefs_lookup MINT_NAME).bind Key.as_uref with
      | none => none
      | some mint_uref =>
        match (alookup acct.urefs_lookup POS_NAME).bind Key.as_uref with
        | none => none
        | some pos_uref =>
          some { b with
            genesis_hash := some p.1,
            post_state_hash := some p.1,
            mint_contract_uref := some mint_uref,
            pos_contract_uref := some pos_uref,
            genesis_account := some acct,
            genesis_transforms := some genesis_effects }

/-
  Concrete fixtures used by the witness theorems below.
-/

/-- A concrete execution context: empty snapshot, empty accumulator,
seed 7, next fresh address 100. -/
def ctx0 : ExecContext := ⟨[], [], 7, 100⟩

/-- A concrete execution context whose snapshot holds an Int32 under a
URef slot at address 5 and a Str under the local key for bytes [1, 2]. -/
def ctx1 : ExecContext :=
  ⟨[(Key.URef ⟨5, AccessRights.NONE⟩, Value.Int32 41),
    (localKey 7 [1, 2], Value.Str "loc")], [], 7, 100⟩

/-- A concrete system account holding mint and pos named keys. -/
def acct0 : Account :=
  ⟨0, [(MINT_NAME, Key.URef ⟨1, AccessRights.READ_ADD_WRITE⟩),
       (POS_NAME, Key.URef ⟨2, AccessRights.READ_ADD_WRITE⟩)]⟩

/-- A concrete genesis effect map: the installer writes the system
account. -/
def genEff0 : List (Key × Transform) :=
  [(Key.Account SYSTEM_ACCOUNT_ADDR, Transform.Write (Value.Account acct0))]

/-- The builder produced by running genesis with genEff0 on the default
builder. -/
def genB1 : WasmTestBuilder :=
  (run_genesis defaultBuilder genEff0).getD defaultBuilder

/-- The builder produced by one further (empty-effects) commit on genB1. -/
def genB2 : WasmTestBuilder :=
  (builder_commit genB1).getD defaultBuilder

/-- The first root produced by committing genEff0 to the empty store. -/
def gsRoot : Store := [(Key.Account 0, Value.Account acct0)]

/-- A concrete effect map every transform of which applies. -/
def okEff : List (Key × Transform) :=
  [(Key.Account 3, Transform.Write (Value.Int32 9)), (Key.Hash 1, Transform.AddInt32 4)]

/-- The store okEff produces from the empty store. -/
def okStore : Store := [(Key.Account 3, Value.Int32 9), (Key.Hash 1, Value.Int32 4)]

/-- A concrete effect map containing a failing transform. -/
def failEff : List (Key × Transform) :=
  [(Key.Account 3, Transform.Write (Value.Int32 9)), (Key.Hash 1, Transform.Failure)]

/-- A concrete narrowing instance: from Int32 values to Int. -/
def int32Of : Value → Option Int
  | Value.Int32 i => some i
  | _ => none

/-- A concrete narrowing instance: from Str values to String. -/
def strOf : Value → Option String
  | Value.Str s => some s
  | _ => none

/-
  Theorems.
-/

/-- Inserting a Write transform for a key makes that key map to exactly
that Write in the accumulator (a Write overwrites whatever transform was
merged before it). -/
theorem alookup_insertTransform_write (acc : List (Key × Transform)) (k : Key)
    (v : Value) :
    alookup (insertTransform acc k (Transform.Write v)) k
      = some (Transform.Write v) := by
  induction acc with
  | nil => simp [insertTransform, alookup]
  | cons kv rest ih =>
    obtain ⟨k', t'⟩ := kv
    by_cases h : k' = k
    · subst h
      simp [insertTransform, alookup, Transform.merge]
    · simp [insertTransform, alookup, h, ih]

/-- C9: get_account returns some account exactly when the transform map
binds the key to a Write of an Account value; a missing key, a non-Write
transform, or a Write of a non-Account value all yield none. -/
theorem get_account_iff_write_account (transforms : List (Key × Transform))
    (k : Key) (a : Account) :
    get_account transforms k = some a ↔
      alookup transforms k = some (Transform.Write (Value.Account a)) := by
  unfold get_account
  cases h : alookup transforms k with
  | none => simp
  | some t =>
    cases t with
    | Identity => simp
    | AddInt32 i => simp
    | Failure => simp
    | Write v =>
      cases v with
      | Int32 i => simp
      | Str s => simp
      | Contract c => simp
      | Account a' =>
        constructor
        · intro ha
          simp at ha
          rw [ha]
        · intro ha
          simp at ha
          simp [ha]

/-- C4: converting a Key into a typed reference fails with
UnexpectedKeyVariant unless the key is the URef variant, succeeds on the
URef variant, and new_turef reverts with UnexpectedKeyVariant whenever the
deserialized host-returned key is not a Key::URef. -/
theorem turef_from_key_requires_uref_variant :
    (∀ (α : Type) (k : Key), k.isURefVariant = false →
        @TURef.fromKey α k = Except.error Error.UnexpectedKeyVariant) ∧
    (∀ (α : Type) (u : URef),
        @TURef.fromKey α (Key.URef u) = Except.ok (TURef.from_uref u)) ∧
    (∀ (α : Type) (k : Key) (ctx : ExecContext), k.isURefVariant = false →
        @new_turef_from_host_key α k ctx
          = Except.error Error.UnexpectedKeyVariant) := by
  refine ⟨?_, ?_, ?_⟩
  · intro α k h
    cases k with
    | URef u => simp [Key.isURefVariant] at h
    | Account addr => rfl
    | Hash addr => rfl
    | Local s hb => rfl
  · intro α u
    rfl
  · intro α k ctx h
    cases k with
    | URef u => simp [Key.isURefVariant] at h
    | Account addr => rfl
    | Hash addr => rfl
    | Local s hb => rfl

/-- Witness for C4 at concrete non-URef keys (Account 3 and Hash 4) and a
concrete context. -/
theorem turef_from_key_requires_uref_variant_witness :
    @TURef.fromKey Int (Key.Account 3) = Except.error Error.UnexpectedKeyVariant ∧
    @new_turef_from_host_key Int (Key.Hash 4) ctx0
      = Except.error Error.UnexpectedKeyVariant := by
  exact ⟨turef_from_key_requires_uref_variant.1 Int (Key.Account 3) (by decide),
         turef_from_key_requires_uref_variant.2.2 Int (Key.Hash 4) ctx0 (by decide)⟩

/-- C2: new_turef asks the host for a fresh address (the next one the host
mints), seeds the new slot with the initial value via an immediate Write
transform (the durable snapshot stays untouched), and returns a typed
capability carrying full READ_ADD_WRITE rights. -/
theorem new_turef_fresh_seeded_full_rights (α : Type) (toValue : α → Value)
    (ctx : ExecContext) (init : α) :
    ∃ (t : TURef α) (ctx2 : ExecContext),
      new_turef toValue ctx init = Except.ok (t, ctx2) ∧
      t.addr = ctx.freshCounter ∧
      t.access_rights = AccessRights.READ_ADD_WRITE ∧
      ctx2.freshCounter = ctx.freshCounter + 1 ∧
      alookup ctx2.accumulator (TURef.toKey t).normalize
        = some (Transform.Write (toValue init)) ∧
      ctx2.globalState = ctx.globalState := by
  refine ⟨⟨ctx.freshCounter, AccessRights.READ_ADD_WRITE⟩,
          (host_new_uref ctx (toValue init)).2, rfl, rfl, rfl, rfl, ?_, rfl⟩
  simpa [host_new_uref, TURef.toKey, Key.normalize] using
    alookup_insertTransform_write ctx.accumulator
      (Key.URef ⟨ctx.freshCounter, AccessRights.NONE⟩) (toValue init)

/-- C5: store_function returns ContractRef::TURef over a freshly minted
address carrying READ_ADD_WRITE rights (a mutable slot, the host write
landing under the URef key), while store_function_at_hash returns
ContractRef::Hash addressed by the content hash of the stored contract
(an immutable slot, the host write landing under the Hash key). -/
theorem store_function_uref_vs_hash (ctx : ExecContext) (name : String)
    (named_keys : List (String × Key)) :
    (store_function ctx name named_keys).1
      = ContractRef.TURef ⟨ctx.freshCounter, AccessRights.READ_ADD_WRITE⟩ ∧
    ((store_function ctx name named_keys).2).freshCounter
      = ctx.freshCounter + 1 ∧
    alookup ((store_function ctx name named_keys).2).accumulator
        (Key.URef ⟨ctx.freshCounter, AccessRights.NONE⟩)
      = some (Transform.Write (Value.Contract ⟨strBytes name, named_keys⟩)) ∧
    (store_function_at_hash ctx name named_keys).1
      = ContractRef.Hash (contractHash ⟨strBytes name, named_keys⟩) ∧
    alookup ((store_function_at_hash ctx name named_keys).2).accumulator
        (Key.Hash (contractHash ⟨strBytes name, named_keys⟩))
      = some (Transform.Write (Value.Contract ⟨strBytes name, named_keys⟩)) := by
  refine ⟨rfl, rfl, ?_, rfl, ?_⟩
  · simpa [store_function, host_store_function, Key.normalize] using
      alookup_insertTransform_write ctx.accumulator
        (Key.URef ⟨ctx.freshCounter, AccessRights.NONE⟩)
        (Value.Contract ⟨strBytes name, named_keys⟩)
  · simpa [store_function_at_hash, host_store_function_at_hash] using
      alookup_insertTransform_write ctx.accumulator
        (Key.Hash (contractHash ⟨strBytes name, named_keys⟩))
        (Value.Contract ⟨strBytes name, named_keys⟩)

/-- C3: for reads through a typed reference and local reads through
serialized key bytes, an absent key yields Ok(None), while a key present
with a value of the wrong shape reverts with ValueConversion, never
yielding None. -/
theorem read_absent_none_wrong_shape_converts :
    (∀ (α : Type) (fromValue : Value → Option α) (ctx : ExecContext) (t : TURef α),
        t.access_rights.read = true →
        (alookup ctx.globalState (TURef.toKey t).normalize = none →
            read fromValue ctx t = Except.ok none) ∧
        (∀ v, alookup ctx.globalState (TURef.toKey t).normalize = some v →
            fromValue v = none →
            read fromValue ctx t = Except.error Error.ValueConversion)) ∧
    (∀ (κ ν : Type) (toBytes : κ → List Nat) (fromValue : Value → Option ν)
        (ctx : ExecContext) (k : κ),
        (alookup ctx.globalState (localKey ctx.seed (toBytes k)) = none →
            read_local toBytes fromValue ctx k = Except.ok none) ∧
        (∀ v, alookup ctx.globalState (localKey ctx.seed (toBytes k)) = some v →
            fromValue v = none →
            read_local toBytes fromValue ctx k
              = Except.error Error.ValueConversion)) := by
  constructor
  · intro α fromValue ctx t hr
    have hread : readRight (TURef.toKey t) = true := by
      simp [readRight, TURef.toKey, hr]
    constructor
    · intro habs
      simp [read, read_untyped, hread, habs, try_into, Bind.bind, Except.bind]
    · intro v hv hconv
      simp [read, read_untyped, hread, hv, try_into, hconv, Bind.bind, Except.bind]
  · intro κ ν toBytes fromValue ctx k
    constructor
    · intro habs
      simp [read_local, read_untyped_local, habs, try_into, Bind.bind, Except.bind]
    · intro v hv hconv
      simp [read_local, read_untyped_local, hv, try_into, hconv, Bind.bind, Except.bind]

/-- Witness for C3 at concrete slots of ctx1: an absent URef slot reads as
none, the Int32 slot read at type String reverts with ValueConversion, an
absent local key reads as none, and the local Str entry read at type Int
reverts with ValueConversion. -/
theorem read_absent_none_wrong_shape_converts_witness :
    read int32Of ctx1 (⟨9, AccessRights.READ⟩ : TURef Int) = Except.ok none ∧
    read strOf ctx1 (⟨5, AccessRights.READ⟩ : TURef String)
      = Except.error Error.ValueConversion ∧
    read_local (fun n : Nat => [n]) int32Of ctx1 9 = Except.ok none ∧
    read_local (fun p : List Nat => p) int32Of ctx1 [1, 2]
      = Except.error Error.ValueConversion := by
  refine ⟨?_, ?_, ?_, ?_⟩
  · exact (read_absent_none_wrong_shape_converts.1 Int int32Of ctx1
      ⟨9, AccessRights.READ⟩ rfl).1 (by decide)
  · exact (read_absent_none_wrong_shape_converts.1 String strOf ctx1
      ⟨5, AccessRights.READ⟩ rfl).2 (Value.Int32 41) (by decide) rfl
  · exact (read_absent_none_wrong_shape_converts.2 Nat Int (fun n => [n])
      int32Of ctx1 9).1 (by decide)
  · exact (read_absent_none_wrong_shape_converts.2 (List Nat) Int (fun p => p)
      int32Of ctx1 [1, 2]).2 (Value.Str "loc") (by decide) rfl

/-- C6: write, add and write_local return only a successor context whose
durable global state, seed and fresh-address counter are unchanged; their
whole effect is the transform buffered into the effect accumulator. -/
theorem mutations_only_buffer_transforms :
    (∀ (α : Type) (toValue : α → Value) (ctx : ExecContext) (t : TURef α)
        (x : α) (ctx2 : ExecContext),
        write toValue ctx t x = Except.ok ctx2 →
        ctx2.globalState = ctx.globalState ∧ ctx2.seed = ctx.seed ∧
        ctx2.freshCounter = ctx.freshCounter ∧
        ctx2.accumulator = insertTransform ctx.accumulator
          (TURef.toKey t).normalize (Transform.Write (toValue x))) ∧
    (∀ (α : Type) (toValue : α → Value) (ctx : ExecContext) (t : TURef α)
        (x : α) (ctx2 : ExecContext),
        add toValue ctx t x = Except.ok ctx2 →
        ctx2.globalState = ctx.globalState ∧ ctx2.seed = ctx.seed ∧
        ctx2.freshCounter = ctx.freshCounter ∧
        ctx2.accumulator = insertTransform ctx.accumulator
          (TURef.toKey t).normalize (addTransformOf (toValue x))) ∧
    (∀ (κ ν : Type) (toBytes : κ → List Nat) (toValue : ν → Value)
        (ctx : ExecContext) (k : κ) (v : ν),
        (write_local toBytes toValue ctx k v).globalState = ctx.globalState ∧
        (write_local toBytes toValue ctx k v).seed = ctx.seed ∧
        (write_local toBytes toValue ctx k v).freshCounter = ctx.freshCounter ∧
        (write_local toBytes toValue ctx k v).accumulator
          = insertTransform ctx.accumulator (localKey ctx.seed (toBytes k))
              (Transform.Write (toValue v))) := by
  refine ⟨?_, ?_, ?_⟩
  · intro α toValue ctx t x ctx2 h
    unfold write write_untyped at h
    split at h
    · simp only [Except.ok.injEq] at h
      subst h
      exact ⟨rfl, rfl, rfl, rfl⟩
    · simp at h
  · intro α toValue ctx t x ctx2 h
    unfold add add_untyped at h
    split at h
    · simp only [Except.ok.injEq] at h
      subst h
      exact ⟨rfl, rfl, rfl, rfl⟩
    · simp at h
  · intro κ ν toBytes toValue ctx k v
    exact ⟨rfl, rfl, rfl, rfl⟩

/-- Witness for C6 at a concrete full-rights reference over ctx0: the
successful write and add leave the durable snapshot of ctx0 unchanged. -/
theorem mutations_only_buffer_transforms_witness :
    write Value.Int32 ctx0 (⟨5, AccessRights.READ_ADD_WRITE⟩ : TURef Int) 3
      = Except.ok (⟨[], [(Key.URef ⟨5, AccessRights.NONE⟩,
          Transform.Write (Value.Int32 3))], 7, 100⟩ : ExecContext) ∧
    (⟨[], [(Key.URef ⟨5, AccessRights.NONE⟩,
        Transform.Write (Value.Int32 3))], 7, 100⟩ : ExecContext).globalState
      = ctx0.globalState ∧
    add Value.Int32 ctx0 (⟨5, AccessRights.READ_ADD_WRITE⟩ : TURef Int) 4
      = Except.ok (⟨[], [(Key.URef ⟨5, AccessRights.NONE⟩,
          Transform.AddInt32 4)], 7, 100⟩ : ExecContext) ∧
    (⟨[], [(Key.URef ⟨5, AccessRights.NONE⟩,
        Transform.AddInt32 4)], 7, 100⟩ : ExecContext).globalState
      = ctx0.globalState ∧
    (write_local (fun n : Nat => [n]) Value.Int32 ctx0 1 5).globalState
      = ctx0.globalState := by
  refine ⟨rfl, ?_, rfl, ?_, ?_⟩
  · exact (mutations_only_buffer_transforms.1 Int Value.Int32 ctx0
      ⟨5, AccessRights.READ_ADD_WRITE⟩ 3 _ rfl).1
  · exact (mutations_only_buffer_transforms.2.1 Int Value.Int32 ctx0
      ⟨5, AccessRights.READ_ADD_WRITE⟩ 4 _ rfl).1
  · exact (mutations_only_buffer_transforms.2.2 Nat Int (fun n => [n])
      Value.Int32 ctx0 1 5).1

/-- C7: narrowing a capability with set_access_rights to a subset of its
rights never increases the effective permissions; a storage operation
whose required right is missing from the current rights set fails with
InvalidAccess (read needs READ, write needs WRITE, add needs ADD); and in
the regression scenario, after new_turef("data") is downgraded to READ,
a write through the downgraded reference fails with InvalidAccess while
the pending Write of "data" for that slot (and the durable snapshot)
remain unchanged. -/
theorem narrowing_never_widens_invalid_access :
    (∀ (α : Type) (t : TURef α) (r2 : AccessRights),
        r2.isSubsetOf t.access_rights = true →
        ((t.set_access_rights r2).access_rights).isSubsetOf t.access_rights
          = true) ∧
    (∀ (α : Type) (fromValue : Value → Option α) (ctx : ExecContext)
        (t : TURef α), t.access_rights.read = false →
        read fromValue ctx t = Except.error Error.InvalidAccess) ∧
    (∀ (α : Type) (toValue : α → Value) (ctx : ExecContext) (t : TURef α)
        (x : α), t.access_rights.write = false →
        write toValue ctx t x = Except.error Error.InvalidAccess) ∧
    (∀ (α : Type) (toValue : α → Value) (ctx : ExecContext) (t : TURef α)
        (x : α), t.access_rights.add = false →
        add toValue ctx t x = Except.error Error.InvalidAccess) ∧
    (∀ ctx : ExecContext,
        new_turef Value.Str ctx "data"
          = Except.ok ((⟨ctx.freshCounter, AccessRights.READ_ADD_WRITE⟩ : TURef String),
              (host_new_uref ctx (Value.Str "data")).2) ∧
        (∀ s : String,
            write Value.Str (host_new_uref ctx (Value.Str "data")).2
              ((⟨ctx.freshCounter, AccessRights.READ_ADD_WRITE⟩ : TURef String).set_access_rights
                AccessRights.READ) s
              = Except.error Error.InvalidAccess) ∧
        alookup ((host_new_uref ctx (Value.Str "data")).2).accumulator
            (TURef.toKey ((⟨ctx.freshCounter, AccessRights.READ_ADD_WRITE⟩ : TURef String).set_access_rights
              AccessRights.READ)).normalize
          = some (Transform.Write (Value.Str "data")) ∧
        ((host_new_uref ctx (Value.Str "data")).2).globalState
          = ctx.globalState) := by
  refine ⟨?_, ?_, ?_, ?_, ?_⟩
  · intro α t r2 h
    exact h
  · intro α fromValue ctx t hr
    simp [read, read_untyped, readRight, TURef.toKey, hr, Bind.bind, Except.bind]
  · intro α toValue ctx t x hw
    simp [write, write_untyped, writeRight, TURef.toKey, hw]
  · intro α toValue ctx t x ha
    simp [add, add_untyped, addRight, TURef.toKey, ha]
  · intro ctx
    refine ⟨rfl, ?_, ?_, rfl⟩
    · intro s
      rfl
    · simpa [host_new_uref, TURef.toKey, TURef.set_access_rights, Key.normalize] using
        alookup_insertTransform_write ctx.accumulator
          (Key.URef ⟨ctx.freshCounter, AccessRights.NONE⟩) (Value.Str "data")

/-- Witness for C7 at concrete inputs: narrowing READ_ADD_WRITE to READ
stays inside the original rights, and the read, write and add operations
each fail with InvalidAccess through a reference lacking the required
right (over ctx1, whose slot at address 5 exists). -/
theorem narrowing_never_widens_invalid_access_witness :
    ((⟨5, AccessRights.READ_ADD_WRITE⟩ : TURef Int).set_access_rights
        AccessRights.READ).access_rights.isSubsetOf AccessRights.READ_ADD_WRITE
      = true ∧
    read int32Of ctx1 (⟨5, AccessRights.NONE⟩ : TURef Int)
      = Except.error Error.InvalidAccess ∧
    write Value.Int32 ctx1 (⟨5, AccessRights.READ⟩ : TURef Int) 1
      = Except.error Error.InvalidAccess ∧
    add Value.Int32 ctx1 (⟨5, AccessRights.READ⟩ : TURef Int) 1
      = Except.error Error.InvalidAccess := by
  refine ⟨?_, ?_, ?_, ?_⟩
  · exact narrowing_never_widens_invalid_access.1 Int
      ⟨5, AccessRights.READ_ADD_WRITE⟩ AccessRights.READ (by decide)
  · exact narrowing_never_widens_invalid_access.2.1 Int int32Of ctx1
      ⟨5, AccessRights.NONE⟩ rfl
  · exact narrowing_never_widens_invalid_access.2.2.1 Int Value.Int32 ctx1
      ⟨5, AccessRights.READ⟩ 1 rfl
  · exact narrowing_never_widens_invalid_access.2.2.2.1 Int Value.Int32 ctx1
      ⟨5, AccessRights.READ⟩ 1 rfl

/-- C1: the commit step is atomic over the whole effect map — when every
transform of the map applies, it returns the single new root together with
the bonded-validator snapshot derived from the post-commit store, it
composes sequentially over the effect list, and when any transform fails
it returns a failure and no root; the builder commit_effects overwrites
the cached post-state hash with the returned new root exactly when the
commit response reports success, and panics (no replacement) otherwise. -/
theorem commit_atomic_and_builder_updates_on_success :
    (∀ (prestate : Store) (effects : List (Key × Transform)) (s2 : Store),
        commitStore prestate effects = some s2 →
        engineCommit prestate effects = Except.ok (s2, bonded_of s2)) ∧
    (∀ (prestate : Store) (effects : List (Key × Transform)),
        commitStore prestate effects = none →
        engineCommit prestate effects
          = Except.error CommitFailure.TransformFailure) ∧
    (∀ (prestate : Store) (e1 e2 : List (Key × Transform)),
        commitStore prestate (e1 ++ e2)
          = (commitStore prestate e1).bind (fun s => commitStore s e2)) ∧
    (∀ (b : WasmTestBuilder) (prestate : Store)
        (effects : List (Key × Transform)) (p : Store × List (Nat × Int)),
        send_commit_request b prestate effects = Except.ok p →
        commit_effects b prestate effects
          = some { b with
              post_state_hash := some p.1,
              bonded_validators := b.bonded_validators ++ [p.2] }) ∧
    (∀ (b : WasmTestBuilder) (prestate : Store)
        (effects : List (Key × Transform)) (e : CommitFailure),
        send_commit_request b prestate effects = Except.error e →
        commit_effects b prestate effects = none) := by
  refine ⟨?_, ?_, ?_, ?_, ?_⟩
  · intro prestate effects s2 h
    simp [engineCommit, h]
  · intro prestate effects h
    simp [engineCommit, h]
  · intro prestate e1 e2
    induction e1 generalizing prestate with
    | nil => simp [commitStore]
    | cons kt rest ih =>
      obtain ⟨k, t⟩ := kt
      cases h : applyTransform prestate k t with
      | none => simp [commitStore, h]
      | some s2 => simp [commitStore, h, ih s2]
  · intro b prestate effects p h
    simp [commit_effects, h]
  · intro b prestate effects e h
    simp [commit_effects, h]

/-- Witness for C1 at concrete effect maps: the wholly applicable okEff
commits to okStore with its derived bonded snapshot and commit_effects
caches that root, while the map failEff containing a failing transform
produces a commit failure and commit_effects replaces nothing. -/
theorem commit_atomic_and_builder_updates_on_success_witness :
    engineCommit [] okEff = Except.ok (okStore, [(3, 9)]) ∧
    engineCommit [] failEff = Except.error CommitFailure.TransformFailure ∧
    commit_effects defaultBuilder [] okEff
      = some { defaultBuilder with
          post_state_hash := some okStore,
          bonded_validators := [[(3, 9)]] } ∧
    commit_effects defaultBuilder [] failEff = none := by
  refine ⟨?_, ?_, ?_, ?_⟩
  · exact commit_atomic_and_builder_updates_on_success.1 [] okEff okStore rfl
  · exact commit_atomic_and_builder_updates_on_success.2.1 [] failEff rfl
  · exact commit_atomic_and_builder_updates_on_success.2.2.2.1 defaultBuilder
      [] okEff (okStore, [(3, 9)]) rfl
  · exact commit_atomic_and_builder_updates_on_success.2.2.2.2 defaultBuilder
      [] failEff CommitFailure.TransformFailure rfl

/-- C8: the default builder holds no root at all before genesis; a
successful run_genesis sets both the genesis hash and the post-state hash
to the single root hash of the genesis response (the first committed
effect map applied to the empty store); and every subsequent builder
commit consumes the cached post-state root and produces exactly one
successor root that replaces it. -/
theorem genesis_first_root_commit_succession :
    (defaultBuilder.genesis_hash = none ∧
     defaultBuilder.post_state_hash = none) ∧
    (∀ (b : WasmTestBuilder) (eff : List (Key × Transform))
        (b2 : WasmTestBuilder),
        run_genesis b eff = some b2 →
        ∃ root bonded, engineCommit [] eff = Except.ok (root, bonded) ∧
          b2.genesis_hash = some root ∧ b2.post_state_hash = some root) ∧
    (∀ (b : WasmTestBuilder) (prestate : Store) (b2 : WasmTestBuilder),
        b.post_state_hash = some prestate →
        builder_commit b = some b2 →
        ∃ s2, commitStore prestate (b.transforms.getLast?.getD []) = some s2 ∧
          b2.post_state_hash = some s2) := by
  refine ⟨⟨rfl, rfl⟩, ?_, ?_⟩
  · intro b eff b2 h
    unfold run_genesis at h
    split at h
    · exact absurd h (by simp)
    · split at h
      · exact absurd h (by simp)
      · split at h
        · exact absurd h (by simp)
        · split at h
          · exact absurd h (by simp)
          · simp only [Option.some.injEq] at h
            subst h
            exact ⟨_, _, by assumption, rfl, rfl⟩
  · intro b prestate b2 hps h
    simp only [builder_commit, hps, commit_effects, send_commit_request,
      engineCommit] at h
    split at h
    · exact absurd h (by simp)
    · rename_i p hok
      split at hok
      · exact absurd hok (by simp)
      · rename_i s2 hc
        simp only [Except.ok.injEq] at hok
        subst hok
        simp only [Option.some.injEq] at h
        subst h
        exact ⟨s2, hc, rfl⟩

/-- Witness for C8 on the concrete genesis effect map genEff0: genesis
sets both cached hashes to the first root gsRoot, and the following
builder commit replaces the post-state hash with the successor root
(committing no transforms, the same store). -/
theorem genesis_first_root_commit_succession_witness :
    genB1.genesis_hash = some gsRoot ∧
    genB1.post_state_hash = some gsRoot ∧
    genB2.post_state_hash = some gsRoot := by
  obtain ⟨root, bonded, hg, h1, h2⟩ :=
    genesis_first_root_commit_succession.2.1 defaultBuilder genEff0 genB1 rfl
  obtain ⟨s2, hc, h3⟩ :=
    genesis_first_root_commit_succession.2.2 genB1 gsRoot genB2 rfl rfl
  have hr : root = gsRoot := by
    have h0 : engineCommit [] genEff0 = Except.ok (gsRoot, []) := rfl
    have := h0.symm.trans hg
    simp only [Except.ok.injEq, Prod.mk.injEq] at this
    exact this.1.symm
  have hs : s2 = gsRoot := by
    have h0 : commitStore gsRoot (genB1.transforms.getLast?.getD [])
        = some gsRoot := rfl
    have := h0.symm.trans hc
    simp only [Option.some.injEq] at this
    exact this.symm
  exact ⟨hr ▸ h1, hr ▸ h2, hs ▸ h3⟩

/-- C10: calling the builder commit when no exec has cached any transforms
does not fail: the last transform map defaults to the empty effect map,
the commit request is sent against the current post-state hash with that
empty map, and the commit succeeds (zero transforms are committed). -/
theorem commit_without_cached_transforms_commits_empty
    (b : WasmTestBuilder) (prestate : Store)
    (ht : b.transforms = []) (hp : b.post_state_hash = some prestate) :
    builder_commit b = commit_effects b prestate [] ∧
    builder_commit b
      = some { b with
          post_state_hash := some prestate,
          bonded_validators := b.bonded_validators ++ [bonded_of prestate] } := by
  unfold builder_commit
  have h0 : b.transforms.getLast?.getD [] = ([] : List (Key × Transform)) := by
    rw [ht]
    rfl
  rw [hp, h0]
  exact ⟨rfl, rfl⟩

/-- Witness for C10 on the post-genesis builder genB1, which has an empty
transform cache: its commit degenerates to committing the empty effect
map on gsRoot and succeeds. -/
theorem commit_without_cached_transforms_commits_empty_witness :
    builder_commit genB1 = commit_effects genB1 gsRoot [] ∧
    builder_commit genB1
      = some { genB1 with
          post_state_hash := some gsRoot,
          bonded_validators := genB1.bonded_validators ++ [bonded_of gsRoot] } :=
  commit_without_cached_transforms_commits_empty genB1 gsRoot rfl rfl

end CasperLabs
